import Mathlib

/-!
Shallow embedding of the resilient email service (email-service.js).

The JavaScript source consists of five cooperating components: a
`CircuitBreaker` per provider, a sliding-window `RateLimiter`, a FIFO
`EmailQueue`, a result registry (`sentEmails` for idempotency,
`emailStatuses` for status tracking) and the `EmailService` coordinator
with `sendEmail` / `attemptSend` / `processQueue` / `getStats`.

Modelling choices:
- Time (`Date.now()` and ISO timestamps) is an explicit `Int` input; each
  retry-loop iteration receives its instant from a clock oracle `tick`.
- A provider's `sendEmail` is nondeterministic in the source (random
  failures, random UUIDs); it is modelled by an oracle
  `oracle : Nat → Nat → Except String SendResult` assigning to each
  (provider index, attempt index) either a thrown error message or the
  returned record.
- JavaScript `Map`s are association lists with `Map.set` semantics
  (overwrite in place, insert at the end).
- The heterogeneous result/status objects of the source are one record
  type `ResultRecord` with optional fields; a field absent on the JS
  object is the default value here.
- The backoff sleep value (`calculateBackoffDelay`) involves real
  arithmetic with `Math.random()`; the coordinator model records *that* a
  sleep happened (provider index, attempt index) while the numeric
  formula is modelled separately over `ℚ` with the random draw as an
  explicit parameter.
-/

/-- Email status enumeration (`EmailStatus` in the source). -/
inductive EmailStatus where
  | pending
  | sent
  | failed
  | retrying
  | queued
deriving DecidableEq, Repr

/-- Circuit breaker states (`CircuitState` in the source); `open` is a Lean
keyword, hence `open_`. -/
inductive CircuitState where
  | closed
  | open_
  | halfOpen
deriving DecidableEq, Repr

/-- Record returned by a provider's `sendEmail` (the fields consumed by the
coordinator: the transport-assigned `id` and the `timestamp`). -/
structure SendResult where
  id : String
  timestamp : Int
deriving DecidableEq, Repr

/-- Circuit breaker state (`CircuitBreaker` constructor fields). -/
structure CircuitBreaker where
  threshold : Nat
  timeout : Int
  failureCount : Nat
  state : CircuitState
  nextAttempt : Int
deriving DecidableEq, Repr

/-- A fresh breaker as built by `new CircuitBreaker()` (threshold 5, timeout
60000); `nextAttempt` is `Date.now()` at construction, an input here. -/
def CircuitBreaker.new (now : Int) : CircuitBreaker :=
  { threshold := 5, timeout := 60000, failureCount := 0,
    state := CircuitState.closed, nextAttempt := now }

/-- Source `CircuitBreaker.onSuccess`: reset the counter and close. -/
def CircuitBreaker.onSuccess (cb : CircuitBreaker) : CircuitBreaker :=
  { cb with failureCount := 0, state := CircuitState.closed }

/-- Source `CircuitBreaker.onFailure`: increment the counter; at the
threshold, trip to OPEN and set the earliest-permissible-retry instant. -/
def CircuitBreaker.onFailure (cb : CircuitBreaker) (now : Int) : CircuitBreaker :=
  let fc := cb.failureCount + 1
  if cb.threshold ≤ fc then
    { cb with
      failureCount := fc, state := CircuitState.open_,
      nextAttempt := now + cb.timeout }
  else
    { cb with failureCount := fc }

deriving instance DecidableEq for Except

/-- Outcome of `CircuitBreaker.call`: the propagated result, the updated
breaker, and whether the wrapped operation was actually invoked. -/
structure CallResult where
  result : Except String SendResult
  breaker : CircuitBreaker
  invoked : Bool
deriving DecidableEq, Repr

/-- Source `CircuitBreaker.call(fn)`: refuse while OPEN before
`nextAttempt`; otherwise (passing through HALF_OPEN when OPEN) invoke the
wrapped operation, whose outcome `fn` is supplied as data, and apply
`onSuccess` / `onFailure`. -/
def CircuitBreaker.call (cb : CircuitBreaker) (now : Int)
    (fn : Except String SendResult) : CallResult :=
  if cb.state = CircuitState.open_ ∧ now < cb.nextAttempt then
    { result := Except.error "Circuit breaker is OPEN", breaker := cb, invoked := false }
  else
    let cb1 := if cb.state = CircuitState.open_ then
      { cb with state := CircuitState.halfOpen } else cb
    match fn with
    | Except.ok r => { result := Except.ok r, breaker := cb1.onSuccess, invoked := true }
    | Except.error e => { result := Except.error e, breaker := cb1.onFailure now, invoked := true }

/-- Sliding-window rate limiter state (`RateLimiter` fields). -/
structure RateLimiter where
  maxRequests : Nat
  windowMs : Int
  requests : List Int
deriving DecidableEq, Repr

/-- Source `RateLimiter.isAllowed()`: drop ledger entries at least
`windowMs` old, deny when the remaining ledger has reached `maxRequests`,
otherwise append `now` and admit. Returns (decision, updated limiter). -/
def RateLimiter.isAllowed (rl : RateLimiter) (now : Int) : Bool × RateLimiter :=
  let requests := rl.requests.filter (fun time => now - time < rl.windowMs)
  if rl.maxRequests ≤ requests.length then
    (false, { rl with requests := requests })
  else
    (true, { rl with requests := requests ++ [now] })

/-- Source `RateLimiter.getWaitTime()`: advisory wait until the oldest
ledger entry leaves the window. -/
def RateLimiter.getWaitTime (rl : RateLimiter) (now : Int) : Int :=
  match rl.requests with
  | [] => 0
  | t :: ts => max 0 (rl.windowMs - (now - (ts.foldl min t)))

/-- Email message as submitted to `sendEmail`. -/
structure Email where
  to_ : String
  from_ : String
  subject : String
  body : String
  idempotencyKey : Option String
deriving DecidableEq, Repr

/-- Universal record for results and status entries. The source stores
plain JS objects with differing field sets in `emailStatuses`,
`sentEmails` and as return values; a field the JS object lacks is the
default value here. -/
structure ResultRecord where
  id : Option String := none
  status : EmailStatus
  provider : Option String := none
  currentProvider : Option String := none
  timestamp : Int := 0
  attempts : Nat := 0
  error : Option String := none
  message : Option String := none
deriving DecidableEq, Repr

/-- Events emitted by the service (`queued`, `sent`, `failed`). -/
inductive Event where
  | queued (key : String)
  | sent (key : String) (result : ResultRecord)
  | failed (key : String) (error : Option String)
deriving DecidableEq, Repr

/-- Lookup in a JS `Map` modelled as an association list. -/
def getKey {α : Type} : List (String × α) → String → Option α
  | [], _ => none
  | (k, v) :: rest, key => if k = key then some v else getKey rest key

/-- `Map.set`: overwrite in place when the key exists, append otherwise. -/
def setKey {α : Type} : List (String × α) → String → α → List (String × α)
  | [], key, v => [(key, v)]
  | (k, w) :: rest, key, v =>
      if k = key then (key, v) :: rest else (k, w) :: setKey rest key v

/-- Contiguous occurrence of `pat` in `l` (JS `String.includes`), on
character lists. -/
def charsHavePattern (pat : List Char) : List Char → Bool
  | [] => pat.isEmpty
  | c :: rest => pat.isPrefixOf (c :: rest) || charsHavePattern pat rest

/-- JS `s.includes(pat)`. -/
def strIncludes (s pat : String) : Bool :=
  charsHavePattern pat.data s.data

/-- The well-known breaker refusal message the coordinator matches on. -/
def breakerOpenMsg : String := "Circuit breaker is OPEN"

/-- Output of the per-provider retry loop of `attemptSend`: updated
registries and breaker, the transport invocations (provider, attempt)
actually made, the backoff sleeps taken, emitted events, the success
result if any, and the last caught error. -/
structure RunOut where
  statuses : List (String × ResultRecord)
  sentEmails : List (String × ResultRecord)
  cb : CircuitBreaker
  invoked : List (Nat × Nat)
  slept : List (Nat × Nat)
  events : List Event
  success : Option ResultRecord
  lastError : Option String
deriving DecidableEq, Repr

/-- Inner retry loop of `attemptSend` for one provider: for attempt `a`
from `attempt` while fuel lasts (fuel starts at `maxRetries + 1`), write
the PENDING/RETRYING status, run the breaker-gated delivery at instant
`tick pIdx a` with outcome `oracle pIdx a`; on success write the
SuccessResult to both registries and stop; on an error containing the
breaker refusal message, abandon the provider (`break`); on another error
sleep (recorded) when retries remain and continue. -/
def runAttempts (maxRetries : Nat) (key pName : String) (pIdx : Nat)
    (oracle : Nat → Nat → Except String SendResult) (tick : Nat → Nat → Int)
    (statuses sentEmails : List (String × ResultRecord)) (cb : CircuitBreaker)
    (lastError : Option String) (attempt : Nat) : Nat → RunOut
  | 0 =>
    { statuses := statuses, sentEmails := sentEmails, cb := cb,
      invoked := [], slept := [], events := [], success := none, lastError := lastError }
  | fuel + 1 =>
    let now := tick pIdx attempt
    let statuses1 := setKey statuses key
      { status := if attempt = 0 then EmailStatus.pending else EmailStatus.retrying,
        timestamp := now, attempts := attempt + 1, currentProvider := some pName }
    let c := cb.call now (oracle pIdx attempt)
    let inv : List (Nat × Nat) := if c.invoked then [(pIdx, attempt)] else []
    match c.result with
    | Except.ok r =>
      let successResult : ResultRecord :=
        { id := some r.id, status := EmailStatus.sent, provider := some pName,
          timestamp := r.timestamp, attempts := attempt + 1 }
      { statuses := setKey statuses1 key successResult,
        sentEmails := setKey sentEmails key successResult,
        cb := c.breaker, invoked := inv, slept := [],
        events := [Event.sent key successResult],
        success := some successResult, lastError := lastError }
    | Except.error e =>
      if strIncludes e breakerOpenMsg then
        { statuses := statuses1, sentEmails := sentEmails, cb := c.breaker,
          invoked := inv, slept := [], events := [],
          success := none, lastError := some e }
      else
        let rest := runAttempts maxRetries key pName pIdx oracle tick
          statuses1 sentEmails c.breaker (some e) (attempt + 1) fuel
        { rest with
          invoked := inv ++ rest.invoked,
          slept := (if attempt < maxRetries then [(pIdx, attempt)] else []) ++ rest.slept }

/-- Output of the provider fallback loop (breakers are the name-keyed map
of the service). -/
structure ProvOut where
  statuses : List (String × ResultRecord)
  sentEmails : List (String × ResultRecord)
  breakers : List (String × CircuitBreaker)
  invoked : List (Nat × Nat)
  slept : List (Nat × Nat)
  events : List Event
  success : Option ResultRecord
  lastError : Option String
deriving DecidableEq, Repr

/-- Outer provider loop of `attemptSend` over the indexed provider list:
run the retry loop against each provider's breaker in order, stopping at
the first success. -/
def runProviders (maxRetries : Nat) (key : String)
    (oracle : Nat → Nat → Except String SendResult) (tick : Nat → Nat → Int)
    (breakers : List (String × CircuitBreaker))
    (statuses sentEmails : List (String × ResultRecord))
    (lastError : Option String) : List (Nat × String) → ProvOut
  | [] =>
    { statuses := statuses, sentEmails := sentEmails, breakers := breakers,
      invoked := [], slept := [], events := [], success := none, lastError := lastError }
  | (i, name) :: rest =>
    let cb := (getKey breakers name).getD (CircuitBreaker.new 0)
    let o := runAttempts maxRetries key name i oracle tick
      statuses sentEmails cb lastError 0 (maxRetries + 1)
    let breakers1 := setKey breakers name o.cb
    match o.success with
    | some r =>
      { statuses := o.statuses, sentEmails := o.sentEmails, breakers := breakers1,
        invoked := o.invoked, slept := o.slept, events := o.events,
        success := some r, lastError := o.lastError }
    | none =>
      let o2 := runProviders maxRetries key oracle tick breakers1
        o.statuses o.sentEmails o.lastError rest
      { statuses := o2.statuses, sentEmails := o2.sentEmails, breakers := o2.breakers,
        invoked := o.invoked ++ o2.invoked, slept := o.slept ++ o2.slept,
        events := o.events ++ o2.events, success := o2.success, lastError := o2.lastError }

/-- Static configuration of the service: the ordered provider names and
`maxRetries` (backoff magnitudes are studied via `calculateBackoffDelay`). -/
structure Ctx where
  providerNames : List String
  maxRetries : Nat
deriving DecidableEq, Repr

/-- Mutable state of an `EmailService` instance. -/
structure ServiceState where
  breakers : List (String × CircuitBreaker)
  rateLimiter : RateLimiter
  sentEmails : List (String × ResultRecord)
  emailStatuses : List (String × ResultRecord)
  queue : List (Email × String)
deriving DecidableEq, Repr

/-- Indexing of the provider array as iterated by `attemptSend`
(`providerIndex` from 0). -/
def withIdx : Nat → List String → List (Nat × String)
  | _, [] => []
  | i, x :: xs => (i, x) :: withIdx (i + 1) xs

/-- Observable actions of one coordinator operation: transport invocations,
backoff sleeps, emitted events. -/
structure Trace where
  invoked : List (Nat × Nat)
  slept : List (Nat × Nat)
  events : List Event
deriving DecidableEq, Repr

/-- Source `EmailService.attemptSend(email, idempotencyKey)`: write the
initial PENDING status, run the provider/retry loops, and either return
the SuccessResult or record and return the FailureResult (emitting
`failed`). `now` is the instant of the surrounding bookkeeping writes. -/
def attemptSend (ctx : Ctx) (oracle : Nat → Nat → Except String SendResult)
    (tick : Nat → Nat → Int) (_email : Email) (key : String)
    (st : ServiceState) (now : Int) : ResultRecord × ServiceState × Trace :=
  let statuses0 := setKey st.emailStatuses key
    { status := EmailStatus.pending, timestamp := now, attempts := 0 }
  let o := runProviders ctx.maxRetries key oracle tick st.breakers
    statuses0 st.sentEmails none (withIdx 0 ctx.providerNames)
  match o.success with
  | some r =>
    (r,
     { st with
       breakers := o.breakers, sentEmails := o.sentEmails,
       emailStatuses := o.statuses },
     { invoked := o.invoked, slept := o.slept, events := o.events })
  | none =>
    let failureResult : ResultRecord :=
      { id := some key, status := EmailStatus.failed, error := o.lastError,
        timestamp := now, attempts := ctx.maxRetries + 1 }
    (failureResult,
     { st with
       breakers := o.breakers, sentEmails := o.sentEmails,
       emailStatuses := setKey o.statuses key failureResult },
     { invoked := o.invoked, slept := o.slept,
       events := o.events ++ [Event.failed key o.lastError] })

/-- Source `generateIdempotencyKey`: the caller-supplied tag verbatim, or
the sha256 digest of the (to, subject, body, from) JSON, abstracted as the
`hash` parameter. -/
def generateIdempotencyKey (hash : Email → String) (email : Email) : String :=
  match email.idempotencyKey with
  | some k => k
  | none => hash email

/-- Source `EmailService.sendEmail(email)`: idempotency-cache lookup
(return the cached result, no events, no attempts), then rate-limiter
admission (on deny: queued status, enqueue, `queued` event, QueuedResult),
then dispatch via `attemptSend`. -/
def sendEmail (ctx : Ctx) (hash : Email → String)
    (oracle : Nat → Nat → Except String SendResult) (tick : Nat → Nat → Int)
    (email : Email) (st : ServiceState) (now : Int) :
    ResultRecord × ServiceState × Trace :=
  let idempotencyKey := generateIdempotencyKey hash email
  match getKey st.sentEmails idempotencyKey with
  | some cached => (cached, st, { invoked := [], slept := [], events := [] })
  | none =>
    let a := st.rateLimiter.isAllowed now
    if a.1 then
      attemptSend ctx oracle tick email idempotencyKey
        { st with rateLimiter := a.2 } now
    else
      ({ id := some idempotencyKey, status := EmailStatus.queued,
         message := some "Email queued due to rate limiting" },
       { st with
         rateLimiter := a.2,
         emailStatuses := setKey st.emailStatuses idempotencyKey
           { status := EmailStatus.queued, timestamp := now, attempts := 0 },
         queue := st.queue ++ [(email, idempotencyKey)] },
       { invoked := [], slept := [], events := [Event.queued idempotencyKey] })

/-- One pass of the drain worker loop inside `processQueue`: while the
queue is non-empty, ask the shared rate limiter; on ADMIT pop the head and
hand it to `attemptSend` directly (no re-admission), on DENY stop the
pass. Iteration `k` supplies that dispatch's oracle, clock and instant. -/
def processQueuePass (ctx : Ctx)
    (oracle : Nat → Nat → Nat → Except String SendResult)
    (tick : Nat → Nat → Nat → Int) (clock : Nat → Int)
    (st : ServiceState) (k : Nat) : Nat → ServiceState
  | 0 => st
  | fuel + 1 =>
    match st.queue with
    | [] => st
    | (email, key) :: restQ =>
      let a := st.rateLimiter.isAllowed (clock k)
      if a.1 then
        let st1 := { st with rateLimiter := a.2, queue := restQ }
        let r := attemptSend ctx (oracle k) (tick k) email key st1 (clock k)
        processQueuePass ctx oracle tick clock r.2.1 (k + 1) fuel
      else
        { st with rateLimiter := a.2 }

/-- Source `EmailService.getEmailStatus(idempotencyKey)`. -/
def getEmailStatus (st : ServiceState) (idempotencyKey : String) : Option ResultRecord :=
  getKey st.emailStatuses idempotencyKey

/-- Per-provider statistics entry. -/
structure ProviderStat where
  name : String
  circuitBreakerState : CircuitState
  failureCount : Nat
deriving DecidableEq, Repr

/-- Source `EmailService.getProviderStats()`. -/
def getProviderStats (ctx : Ctx) (st : ServiceState) : List ProviderStat :=
  ctx.providerNames.map (fun name =>
    let cb := (getKey st.breakers name).getD (CircuitBreaker.new 0)
    { name := name, circuitBreakerState := cb.state, failureCount := cb.failureCount })

/-- JS `((sent / total) * 100).toFixed(2) + "%"`: the percentage rounded
half-up to two decimals, rendered with exactly two fractional digits. -/
def percentString (sent total : Nat) : String :=
  let m := (20000 * sent + total) / (2 * total)
  toString (m / 100) ++ "." ++ (if m % 100 < 10 then "0" else "") ++ toString (m % 100) ++ "%"

/-- Shape of the `getStats()` return value. -/
structure Stats where
  totalEmails : Nat
  sentEmails : Nat
  failedEmails : Nat
  queuedEmails : Nat
  successRate : String
  providers : List ProviderStat
deriving DecidableEq, Repr

/-- Source `EmailService.getStats()`: sizes and filters over the status
table, the queue size, and the formatted success rate. -/
def getStats (ctx : Ctx) (st : ServiceState) : Stats :=
  let totalEmails := st.emailStatuses.length
  let sentEmails :=
    (st.emailStatuses.filter (fun kv => kv.2.status = EmailStatus.sent)).length
  let failedEmails :=
    (st.emailStatuses.filter (fun kv => kv.2.status = EmailStatus.failed)).length
  let queuedEmails := st.queue.length
  { totalEmails := totalEmails, sentEmails := sentEmails,
    failedEmails := failedEmails, queuedEmails := queuedEmails,
    successRate := if 0 < totalEmails then percentString sentEmails totalEmails else "0%",
    providers := getProviderStats ctx st }

/-- Source `calculateBackoffDelay(attempt)` over exact rationals:
`delay = baseDelay * 2^attempt`, `jitter = r * 0.1 * delay` with the
`Math.random()` draw `r` an explicit parameter, result
`min (delay + jitter) maxDelay`. -/
def calculateBackoffDelay (baseDelay maxDelay : ℚ) (r : ℚ) (attempt : Nat) : ℚ :=
  let delay := baseDelay * 2 ^ attempt
  let jitter := r * (1 / 10) * delay
  min (delay + jitter) maxDelay

/-- Iterate `call` with a failing wrapped operation `n` times at instant
`now` (consecutive failures through one breaker). -/
def failTimes (e : String) (now : Int) : Nat → CircuitBreaker → CircuitBreaker
  | 0, cb => cb
  | n + 1, cb => failTimes e now n ((cb.call now (Except.error e)).breaker)

/-- Fold a sequence of `isAllowed` calls (at the given instants) over a
rate limiter. -/
def runCalls (rl : RateLimiter) : List Int → RateLimiter
  | [] => rl
  | t :: ts => runCalls (rl.isAllowed t).2 ts

/-! Helper lemmas about the association-list map operations. -/

theorem getKey_setKey_self {α : Type} (l : List (String × α)) (k : String) (v : α) :
    getKey (setKey l k v) k = some v := by
  induction l with
  | nil => simp [setKey, getKey]
  | cons hd tl ih =>
    obtain ⟨k1, v1⟩ := hd
    by_cases h : k1 = k
    · simp [setKey, getKey, h]
    · simp [setKey, getKey, h, ih]

theorem getKey_setKey_ne {α : Type} (l : List (String × α)) (k k' : String) (v : α)
    (h : k' ≠ k) : getKey (setKey l k v) k' = getKey l k' := by
  have hk : ¬ k = k' := fun hh => h hh.symm
  induction l with
  | nil => simp [setKey, getKey, hk]
  | cons hd tl ih =>
    obtain ⟨k1, v1⟩ := hd
    by_cases h1 : k1 = k
    · subst h1
      simp [setKey, getKey, hk]
    · by_cases h2 : k1 = k'
      · simp [setKey, getKey, h1, h2, h]
      · simp [setKey, getKey, h1, h2, ih]

theorem setKey_getKey_self {α : Type} (l : List (String × α)) (k : String) (v : α)
    (h : getKey l k = some v) : setKey l k v = l := by
  induction l with
  | nil => simp [getKey] at h
  | cons hd tl ih =>
    obtain ⟨k1, v1⟩ := hd
    by_cases h1 : k1 = k
    · subst h1
      simp [getKey] at h
      simp [setKey, h]
    · simp [getKey, h1] at h
      simp [setKey, h1, ih h]

/-! C1 — duplicate submission returns the cached result without side
effects. -/

/-- C1: for every message whose fingerprint already has an entry in the
success cache, a further `sendEmail` returns that identical cached
SuccessResult, makes no transport invocation, sleeps for no backoff, and
emits no event; the service state is untouched. -/
theorem sendEmail_duplicate_returns_cache (ctx : Ctx) (hash : Email → String)
    (oracle : Nat → Nat → Except String SendResult) (tick : Nat → Nat → Int)
    (email : Email) (st : ServiceState) (now : Int) (r : ResultRecord)
    (h : getKey st.sentEmails (generateIdempotencyKey hash email) = some r) :
    sendEmail ctx hash oracle tick email st now =
      (r, st, { invoked := [], slept := [], events := [] }) := by
  simp only [sendEmail, h]

/-- Witness for C1 on a concrete cached state. -/
theorem sendEmail_duplicate_returns_cache_witness :
    sendEmail { providerNames := ["P1"], maxRetries := 3 } (fun _ => "H")
      (fun _ _ => Except.error "boom") (fun _ _ => 0)
      { to_ := "a", from_ := "b", subject := "s", body := "x", idempotencyKey := some "F" }
      { breakers := [("P1", CircuitBreaker.new 0)],
        rateLimiter := { maxRequests := 100, windowMs := 60000, requests := [] },
        sentEmails := [("F", { id := some "u1", status := EmailStatus.sent,
                               provider := some "P1", timestamp := 5, attempts := 1 })],
        emailStatuses := [("F", { id := some "u1", status := EmailStatus.sent,
                                  provider := some "P1", timestamp := 5, attempts := 1 })],
        queue := [] } 9 =
      ({ id := some "u1", status := EmailStatus.sent, provider := some "P1",
         timestamp := 5, attempts := 1 },
       { breakers := [("P1", CircuitBreaker.new 0)],
         rateLimiter := { maxRequests := 100, windowMs := 60000, requests := [] },
         sentEmails := [("F", { id := some "u1", status := EmailStatus.sent,
                                provider := some "P1", timestamp := 5, attempts := 1 })],
         emailStatuses := [("F", { id := some "u1", status := EmailStatus.sent,
                                   provider := some "P1", timestamp := 5, attempts := 1 })],
         queue := [] },
       { invoked := [], slept := [], events := [] }) :=
  sendEmail_duplicate_returns_cache _ _ _ _ _ _ _ _ (by decide)

/-! C6 — rate limiter admission semantics and window-ceiling invariant. -/

theorem isAllowed_preserves_ceiling (rl : RateLimiter) (now : Int)
    (h : ∀ t : Int,
      ((rl.requests.filter (fun a => t - a < rl.windowMs)).length ≤ rl.maxRequests)) :
    ∀ t : Int,
      (((rl.isAllowed now).2.requests.filter (fun a => t - a < rl.windowMs)).length
        ≤ rl.maxRequests) := by
  intro t
  by_cases hc : rl.maxRequests ≤ (rl.requests.filter (fun a => now - a < rl.windowMs)).length
  · simp only [RateLimiter.isAllowed, if_pos hc]
    calc ((rl.requests.filter (fun a => now - a < rl.windowMs)).filter
            (fun a => t - a < rl.windowMs)).length
        ≤ (rl.requests.filter (fun a => t - a < rl.windowMs)).length :=
          List.Sublist.length_le
            (List.Sublist.filter _ (List.filter_sublist rl.requests))
      _ ≤ rl.maxRequests := h t
  · simp only [RateLimiter.isAllowed, if_neg hc]
    rw [List.filter_append]
    have h1 : ((rl.requests.filter (fun a => now - a < rl.windowMs)).filter
        (fun a => t - a < rl.windowMs)).length
        ≤ (rl.requests.filter (fun a => now - a < rl.windowMs)).length :=
      List.length_filter_le _ _
    have h2 : (List.filter (fun a => decide (t - a < rl.windowMs)) [now]).length ≤ 1 := by
      simp only [List.filter]
      by_cases hd : t - now < rl.windowMs <;> simp [hd]
    rw [List.length_append]
    omega

theorem runCalls_fields (ts : List Int) (rl : RateLimiter) :
    (runCalls rl ts).maxRequests = rl.maxRequests ∧
    (runCalls rl ts).windowMs = rl.windowMs := by
  induction ts generalizing rl with
  | nil => exact ⟨rfl, rfl⟩
  | cons t ts ih =>
    have := ih (rl.isAllowed t).2
    have hfields : (rl.isAllowed t).2.maxRequests = rl.maxRequests ∧
        (rl.isAllowed t).2.windowMs = rl.windowMs := by
      by_cases hc : rl.maxRequests ≤
        (rl.requests.filter (fun a => t - a < rl.windowMs)).length <;>
        simp [RateLimiter.isAllowed, hc]
    simpa [runCalls, hfields.1, hfields.2] using this

theorem runCalls_ceiling (maxRequests : Nat) (windowMs : Int) (ts : List Int)
    (rl : RateLimiter) (hm : rl.maxRequests = maxRequests) (hw : rl.windowMs = windowMs)
    (h : ∀ t : Int,
      ((rl.requests.filter (fun a => t - a < windowMs)).length ≤ maxRequests)) :
    ∀ t : Int,
      (((runCalls rl ts).requests.filter (fun a => t - a < windowMs)).length
        ≤ maxRequests) := by
  induction ts generalizing rl with
  | nil => simpa [runCalls] using h
  | cons t0 ts ih =>
    have hfields : (rl.isAllowed t0).2.maxRequests = rl.maxRequests ∧
        (rl.isAllowed t0).2.windowMs = rl.windowMs := by
      by_cases hc : rl.maxRequests ≤
        (rl.requests.filter (fun a => t0 - a < rl.windowMs)).length <;>
        simp [RateLimiter.isAllowed, hc]
    have hnext := isAllowed_preserves_ceiling rl t0 (by simpa [hm, hw] using h)
    rw [hm, hw] at hnext
    simpa [runCalls] using
      ih (rl.isAllowed t0).2 (hfields.1.trans hm) (hfields.2.trans hw) hnext

/-- C6: `isAllowed` first drops every ledger timestamp at least `windowMs`
old, then denies when the remaining ledger has at least `maxRequests`
entries, and otherwise appends the current instant and admits; and
consequently, starting from an empty ledger, after any sequence of calls
the number of retained admissions within any window never exceeds
`maxRequests`. -/
theorem rateLimiter_admission :
    (∀ (rl : RateLimiter) (now : Int),
      ((rl.isAllowed now).1 = false ↔
        rl.maxRequests ≤ (rl.requests.filter (fun a => now - a < rl.windowMs)).length) ∧
      (rl.isAllowed now).2.requests =
        (if rl.maxRequests ≤ (rl.requests.filter (fun a => now - a < rl.windowMs)).length
         then rl.requests.filter (fun a => now - a < rl.windowMs)
         else rl.requests.filter (fun a => now - a < rl.windowMs) ++ [now]) ∧
      (rl.isAllowed now).2.maxRequests = rl.maxRequests ∧
      (rl.isAllowed now).2.windowMs = rl.windowMs) ∧
    (∀ (maxRequests : Nat) (windowMs : Int) (ts : List Int) (t : Int),
      (((runCalls { maxRequests := maxRequests, windowMs := windowMs, requests := [] }
          ts).requests.filter (fun a => t - a < windowMs)).length ≤ maxRequests)) := by
  constructor
  · intro rl now
    by_cases hc : rl.maxRequests ≤
        (rl.requests.filter (fun a => now - a < rl.windowMs)).length <;>
      simp [RateLimiter.isAllowed, hc]
  · intro maxRequests windowMs ts t
    exact runCalls_ceiling maxRequests windowMs ts _ rfl rfl (by simp) t

/-! C7 — exponential backoff bounds. -/

/-- C7: for attempt index `a`, the backoff delay equals
`min (baseDelay * 2 ^ a + jitter) maxDelay` with
`jitter = r * 0.1 * (baseDelay * 2 ^ a)` for the uniform draw
`r ∈ [0, 1)`, hence `0 ≤ jitter < 0.1 * baseDelay * 2 ^ a`; the delay
never exceeds `maxDelay`, and whenever it is not clamped it lies in
`[baseDelay * 2 ^ a, 1.1 * baseDelay * 2 ^ a)`. -/
theorem backoffDelay_bounds (baseDelay maxDelay r : ℚ) (attempt : Nat)
    (hb : 0 < baseDelay) (hr0 : 0 ≤ r) (hr1 : r < 1) :
    calculateBackoffDelay baseDelay maxDelay r attempt =
      min (baseDelay * 2 ^ attempt + r * (1 / 10) * (baseDelay * 2 ^ attempt)) maxDelay ∧
    0 ≤ r * (1 / 10) * (baseDelay * 2 ^ attempt) ∧
    r * (1 / 10) * (baseDelay * 2 ^ attempt) < (1 / 10) * (baseDelay * 2 ^ attempt) ∧
    calculateBackoffDelay baseDelay maxDelay r attempt ≤ maxDelay ∧
    (baseDelay * 2 ^ attempt + r * (1 / 10) * (baseDelay * 2 ^ attempt) ≤ maxDelay →
      baseDelay * 2 ^ attempt ≤ calculateBackoffDelay baseDelay maxDelay r attempt ∧
      calculateBackoffDelay baseDelay maxDelay r attempt
        < (11 / 10) * (baseDelay * 2 ^ attempt)) := by
  have hpow : (0 : ℚ) < 2 ^ attempt := by positivity
  have hd : 0 < baseDelay * 2 ^ attempt := by positivity
  have hj0 : 0 ≤ r * (1 / 10) * (baseDelay * 2 ^ attempt) := by positivity
  have hj1 : r * (1 / 10) * (baseDelay * 2 ^ attempt)
      < (1 / 10) * (baseDelay * 2 ^ attempt) := by nlinarith
  refine ⟨rfl, hj0, hj1, min_le_right _ _, fun hcl => ?_⟩
  constructor
  · rw [calculateBackoffDelay, min_eq_left hcl]
    linarith
  · rw [calculateBackoffDelay, min_eq_left hcl]
    nlinarith

/-- Witness for C7 at `baseDelay = 1000`, `maxDelay = 30000`, `r = 1/2`,
attempt 2: the delay is `4000 + 200 = 4200`. -/
theorem backoffDelay_bounds_witness :
    (0 : ℚ) < 1000 ∧ (0 : ℚ) ≤ 1 / 2 ∧ (1 : ℚ) / 2 < 1 ∧
    ((1000 : ℚ) * 2 ^ 2 ≤ calculateBackoffDelay 1000 30000 (1 / 2) 2 ∧
      calculateBackoffDelay 1000 30000 (1 / 2) 2 < (11 / 10) * (1000 * 2 ^ 2)) :=
  ⟨by norm_num, by norm_num, by norm_num,
   (backoffDelay_bounds 1000 30000 (1 / 2) 2 (by norm_num) (by norm_num)
      (by norm_num)).2.2.2.2 (by norm_num [calculateBackoffDelay])⟩

/-! C4 — circuit breaker gating. -/

theorem failTimes_closed (e : String) (now : Int) :
    ∀ (n : Nat) (cb : CircuitBreaker), cb.state = CircuitState.closed →
      cb.failureCount + n < cb.threshold →
      failTimes e now n cb = { cb with failureCount := cb.failureCount + n }
  | 0, cb, _, _ => by simp [failTimes]
  | n + 1, cb, hs, hlt => by
    have hnot : ¬ (cb.state = CircuitState.open_ ∧ now < cb.nextAttempt) := by
      rw [hs]; simp
    have hncount : ¬ (cb.threshold ≤ cb.failureCount + 1) := by omega
    have hstep : (cb.call now (Except.error e)).breaker
        = { cb with failureCount := cb.failureCount + 1 } := by
      simp [CircuitBreaker.call, hnot, hs, CircuitBreaker.onFailure, hncount]
    rw [show failTimes e now (n + 1) cb
          = failTimes e now n ((cb.call now (Except.error e)).breaker) from rfl,
        hstep,
        failTimes_closed e now n { cb with failureCount := cb.failureCount + 1 }
          hs (by simp; omega)]
    simp [CircuitBreaker.mk.injEq]
    omega

theorem failTimes_trip (e : String) (now : Int) :
    ∀ (n : Nat) (cb : CircuitBreaker), cb.state = CircuitState.closed →
      cb.failureCount + n = cb.threshold → 0 < n →
      failTimes e now n cb =
        { cb with
          failureCount := cb.threshold, state := CircuitState.open_,
          nextAttempt := now + cb.timeout }
  | 0, _, _, _, hpos => absurd hpos (by omega)
  | n + 1, cb, hs, heq, _ => by
    have hnot : ¬ (cb.state = CircuitState.open_ ∧ now < cb.nextAttempt) := by
      rw [hs]; simp
    by_cases hn : n = 0
    · subst hn
      have hcount : cb.threshold ≤ cb.failureCount + 1 := by omega
      have hstep : (cb.call now (Except.error e)).breaker
          = { cb with
              failureCount := cb.failureCount + 1, state := CircuitState.open_,
              nextAttempt := now + cb.timeout } := by
        simp [CircuitBreaker.call, hnot, hs, CircuitBreaker.onFailure, hcount]
      rw [show failTimes e now 1 cb
            = failTimes e now 0 ((cb.call now (Except.error e)).breaker) from rfl,
          hstep]
      simp [failTimes, CircuitBreaker.mk.injEq]
      omega
    · have hncount : ¬ (cb.threshold ≤ cb.failureCount + 1) := by omega
      have hstep : (cb.call now (Except.error e)).breaker
          = { cb with failureCount := cb.failureCount + 1 } := by
        simp [CircuitBreaker.call, hnot, hs, CircuitBreaker.onFailure, hncount]
      rw [show failTimes e now (n + 1) cb
            = failTimes e now n ((cb.call now (Except.error e)).breaker) from rfl,
          hstep,
          failTimes_trip e now n { cb with failureCount := cb.failureCount + 1 }
            hs (by simp; omega) (by omega)]

/-- C4: (1) while a breaker is OPEN and `now` is before the
earliest-permissible-retry instant, `call` refuses with the breaker-open
error without invoking the wrapped operation and without changing the
breaker; (2) starting from a fresh CLOSED breaker, `threshold` consecutive
failures at instant `now` leave the breaker OPEN with
`nextAttempt = now + timeout`, and any attempt before that instant is so
refused; (3) once the cooldown has elapsed, the wrapped operation is
invoked again (one probe): on success the breaker is CLOSED, on failure it
is OPEN again with a fresh cooldown. -/
theorem circuitBreaker_gating :
    (∀ (cb : CircuitBreaker) (now : Int) (fn : Except String SendResult),
      cb.state = CircuitState.open_ → now < cb.nextAttempt →
      (cb.call now fn).result = Except.error breakerOpenMsg ∧
      (cb.call now fn).invoked = false ∧ (cb.call now fn).breaker = cb) ∧
    (∀ (cb : CircuitBreaker) (e : String) (now now2 : Int) (fn : Except String SendResult),
      cb.state = CircuitState.closed → cb.failureCount = 0 → 0 < cb.threshold →
      (failTimes e now cb.threshold cb).state = CircuitState.open_ ∧
      (failTimes e now cb.threshold cb).nextAttempt = now + cb.timeout ∧
      (now2 < now + cb.timeout →
        ((failTimes e now cb.threshold cb).call now2 fn).invoked = false ∧
        ((failTimes e now cb.threshold cb).call now2 fn).result
          = Except.error breakerOpenMsg)) ∧
    (∀ (cb : CircuitBreaker) (now : Int) (r : SendResult) (e : String),
      cb.state = CircuitState.open_ → cb.threshold ≤ cb.failureCount →
      cb.nextAttempt ≤ now →
      (cb.call now (Except.ok r)).invoked = true ∧
      (cb.call now (Except.ok r)).breaker.state = CircuitState.closed ∧
      (cb.call now (Except.ok r)).breaker.failureCount = 0 ∧
      (cb.call now (Except.error e)).invoked = true ∧
      (cb.call now (Except.error e)).breaker.state = CircuitState.open_ ∧
      (cb.call now (Except.error e)).breaker.nextAttempt = now + cb.timeout) := by
  refine ⟨?_, ?_, ?_⟩
  · intro cb now fn hs hlt
    simp [CircuitBreaker.call, hs, hlt, breakerOpenMsg]
  · intro cb e now now2 fn hs hc ht
    have htrip := failTimes_trip e now cb.threshold cb hs (by omega) ht
    rw [htrip]
    refine ⟨rfl, rfl, fun hlt => ?_⟩
    simp [CircuitBreaker.call, hlt, breakerOpenMsg]
  · intro cb now r e hs hc hle
    have hnot : ¬ (cb.state = CircuitState.open_ ∧ now < cb.nextAttempt) := by
      rw [hs]; simp; omega
    have hcount : cb.threshold ≤ cb.failureCount + 1 := by omega
    have hnlt : ¬ now < cb.nextAttempt := by omega
    refine ⟨?_, ?_, ?_, ?_, ?_, ?_⟩ <;>
      simp [CircuitBreaker.call, hnot, hnlt, hs, CircuitBreaker.onSuccess,
        CircuitBreaker.onFailure, hcount]

/-- Witness for C4 at a concrete breaker (threshold 3, timeout 100):
refusal while OPEN, trip after 3 failures, probe after the cooldown. -/
theorem circuitBreaker_gating_witness :
    (({ threshold := 3, timeout := 100, failureCount := 0,
        state := CircuitState.open_, nextAttempt := 50 } :
        CircuitBreaker).call 10 (Except.ok { id := "u", timestamp := 0 })).invoked
      = false ∧
    (failTimes "boom" 7 3
      { threshold := 3, timeout := 100, failureCount := 0,
        state := CircuitState.closed, nextAttempt := 0 }).state = CircuitState.open_ ∧
    (({ threshold := 3, timeout := 100, failureCount := 3,
        state := CircuitState.open_, nextAttempt := 50 } :
        CircuitBreaker).call 60 (Except.ok { id := "u", timestamp := 0 })).breaker.state
      = CircuitState.closed ∧
    (({ threshold := 3, timeout := 100, failureCount := 3,
        state := CircuitState.open_, nextAttempt := 50 } :
        CircuitBreaker).call 60 (Except.error "boom")).breaker.nextAttempt = 160 :=
  ⟨(circuitBreaker_gating.1
      { threshold := 3, timeout := 100, failureCount := 0,
        state := CircuitState.open_, nextAttempt := 50 } 10
      (Except.ok { id := "u", timestamp := 0 }) rfl (by decide)).2.1,
   (circuitBreaker_gating.2.1
      { threshold := 3, timeout := 100, failureCount := 0,
        state := CircuitState.closed, nextAttempt := 0 } "boom" 7 0
      (Except.ok { id := "u", timestamp := 0 }) rfl rfl (by decide)).1,
   (circuitBreaker_gating.2.2
      { threshold := 3, timeout := 100, failureCount := 3,
        state := CircuitState.open_, nextAttempt := 50 } 60
      { id := "u", timestamp := 0 } "boom" rfl (by decide) (by decide)).2.1,
   (circuitBreaker_gating.2.2
      { threshold := 3, timeout := 100, failureCount := 3,
        state := CircuitState.open_, nextAttempt := 50 } 60
      { id := "u", timestamp := 0 } "boom" rfl (by decide) (by decide)).2.2.2.2.2⟩

/-! C2 — terminality of SENT/FAILED. -/

/-- C2 counterexample: the claim "once the status table maps F to SENT or
FAILED, no later operation (a further sendEmail or the drain worker's
dispatch of a queued entry) ever changes Status(F)" fails on the code.
With one always-failing provider and `maxRetries = 0`, submitting the same
message twice against a limiter with `maxRequests = 1` records FAILED and
then overwrites it with QUEUED (failures are not cached, so the second
`sendEmail` re-enters admission and is rate-denied). Moreover, the drain
worker's dispatch of a stale queued entry overwrites even a SENT status
with FAILED. -/
theorem status_not_terminal_cex :
    (getEmailStatus
      ((sendEmail { providerNames := ["P1"], maxRetries := 0 } (fun _ => "H")
        (fun _ _ => Except.error "boom") (fun _ _ => 0)
        { to_ := "a", from_ := "b", subject := "s", body := "x", idempotencyKey := some "F" }
        { breakers := [("P1", CircuitBreaker.new 0)],
          rateLimiter := { maxRequests := 1, windowMs := 1000, requests := [] },
          sentEmails := [], emailStatuses := [], queue := [] } 0).2.1)
      "F").map (fun rr => rr.status) = some EmailStatus.failed ∧
    (getEmailStatus
      ((sendEmail { providerNames := ["P1"], maxRetries := 0 } (fun _ => "H")
        (fun _ _ => Except.error "boom") (fun _ _ => 0)
        { to_ := "a", from_ := "b", subject := "s", body := "x", idempotencyKey := some "F" }
        ((sendEmail { providerNames := ["P1"], maxRetries := 0 } (fun _ => "H")
          (fun _ _ => Except.error "boom") (fun _ _ => 0)
          { to_ := "a", from_ := "b", subject := "s", body := "x", idempotencyKey := some "F" }
          { breakers := [("P1", CircuitBreaker.new 0)],
            rateLimiter := { maxRequests := 1, windowMs := 1000, requests := [] },
            sentEmails := [], emailStatuses := [], queue := [] } 0).2.1) 1).2.1)
      "F").map (fun rr => rr.status) = some EmailStatus.queued ∧
    (getEmailStatus
      ({ breakers := [("P1", CircuitBreaker.new 0)],
         rateLimiter := { maxRequests := 100, windowMs := 1000, requests := [] },
         sentEmails := [("F", { id := some "u1", status := EmailStatus.sent,
                                provider := some "P1", timestamp := 5, attempts := 1 })],
         emailStatuses := [("F", { id := some "u1", status := EmailStatus.sent,
                                   provider := some "P1", timestamp := 5, attempts := 1 })],
         queue := [({ to_ := "a", from_ := "b", subject := "s", body := "x",
                      idempotencyKey := some "F" }, "F")] } : ServiceState)
      "F").map (fun rr => rr.status) = some EmailStatus.sent ∧
    (getEmailStatus
      (processQueuePass { providerNames := ["P1"], maxRetries := 0 }
        (fun _ _ _ => Except.error "boom") (fun _ _ _ => 0) (fun _ => 0)
        { breakers := [("P1", CircuitBreaker.new 0)],
          rateLimiter := { maxRequests := 100, windowMs := 1000, requests := [] },
          sentEmails := [("F", { id := some "u1", status := EmailStatus.sent,
                                 provider := some "P1", timestamp := 5, attempts := 1 })],
          emailStatuses := [("F", { id := some "u1", status := EmailStatus.sent,
                                    provider := some "P1", timestamp := 5, attempts := 1 })],
          queue := [({ to_ := "a", from_ := "b", subject := "s", body := "x",
                       idempotencyKey := some "F" }, "F")] } 0 1)
      "F").map (fun rr => rr.status) = some EmailStatus.failed := by
  decide

/-- C2 amended: SENT and FAILED are terminal only for the dispatch cycle
that recorded them. Once a fingerprint has its SuccessResult in the
idempotency cache (which happens exactly when SENT is recorded), every
further `sendEmail` with that fingerprint is a cache hit and changes no
status — indeed the whole engine state is untouched. A FAILED status, by
contrast, is not cached, so a further `sendEmail` with the same
fingerprint starts a new cycle and may overwrite the status (for example
with QUEUED under rate denial), and the drain worker's dispatch of a stale
queued entry likewise overwrites the status of its fingerprint. -/
theorem status_terminal_for_cached_sent (ctx : Ctx) (hash : Email → String)
    (oracle : Nat → Nat → Except String SendResult) (tick : Nat → Nat → Int)
    (email : Email) (st : ServiceState) (now : Int) (r : ResultRecord)
    (h : getKey st.sentEmails (generateIdempotencyKey hash email) = some r) :
    (sendEmail ctx hash oracle tick email st now).2.1 = st ∧
    ∀ k : String,
      getEmailStatus (sendEmail ctx hash oracle tick email st now).2.1 k
        = getEmailStatus st k := by
  constructor
  · simp only [sendEmail, h]
  · intro k
    simp only [sendEmail, h]

/-- Witness for the amended C2 on a concrete cached state. -/
theorem status_terminal_for_cached_sent_witness :
    (sendEmail { providerNames := ["P2"], maxRetries := 1 } (fun _ => "H")
      (fun _ _ => Except.error "down") (fun _ _ => 2)
      { to_ := "c", from_ := "d", subject := "t", body := "y", idempotencyKey := some "G" }
      { breakers := [("P2", CircuitBreaker.new 0)],
        rateLimiter := { maxRequests := 2, windowMs := 500, requests := [1] },
        sentEmails := [("G", { id := some "u2", status := EmailStatus.sent,
                               provider := some "P2", timestamp := 1, attempts := 2 })],
        emailStatuses := [("G", { id := some "u2", status := EmailStatus.sent,
                                  provider := some "P2", timestamp := 1, attempts := 2 })],
        queue := [] } 3).2.1 =
      { breakers := [("P2", CircuitBreaker.new 0)],
        rateLimiter := { maxRequests := 2, windowMs := 500, requests := [1] },
        sentEmails := [("G", { id := some "u2", status := EmailStatus.sent,
                               provider := some "P2", timestamp := 1, attempts := 2 })],
        emailStatuses := [("G", { id := some "u2", status := EmailStatus.sent,
                                  provider := some "P2", timestamp := 1, attempts := 2 })],
        queue := [] } :=
  (status_terminal_for_cached_sent _ _ _ _ _ _ _
    { id := some "u2", status := EmailStatus.sent, provider := some "P2",
      timestamp := 1, attempts := 2 } (by decide)).1

/-! C3 — bounded transport invocations. -/

theorem length_ite_singleton {α : Type} (b : Bool) (x : α) :
    (if b = true then [x] else ([] : List α)).length ≤ 1 := by
  split <;> simp

theorem mem_ite_singleton {α : Type} {b : Bool} {x pr : α}
    (h : pr ∈ if b = true then [x] else ([] : List α)) : pr = x := by
  split at h <;> simp at h
  exact h

theorem runAttempts_invoked_shape (maxRetries : Nat) (key pName : String) (pIdx : Nat)
    (oracle : Nat → Nat → Except String SendResult) (tick : Nat → Nat → Int) :
    ∀ (fuel attempt : Nat) (statuses sentEmails : List (String × ResultRecord))
      (cb : CircuitBreaker) (le : Option String),
      (runAttempts maxRetries key pName pIdx oracle tick statuses sentEmails cb le attempt
        fuel).invoked.length ≤ fuel ∧
      ∀ pr ∈ (runAttempts maxRetries key pName pIdx oracle tick statuses sentEmails cb le
        attempt fuel).invoked, pr.1 = pIdx
  | 0, attempt, statuses, sentEmails, cb, le => by simp [runAttempts]
  | fuel + 1, attempt, statuses, sentEmails, cb, le => by
    cases hres : (cb.call (tick pIdx attempt) (oracle pIdx attempt)).result with
    | ok r =>
      simp only [runAttempts, hres]
      constructor
      · exact le_trans (length_ite_singleton _ _) (by omega)
      · intro pr hpr
        simp [mem_ite_singleton hpr]
    | error e =>
      by_cases hinc : strIncludes e breakerOpenMsg = true
      · simp only [runAttempts, hres]
        rw [if_pos hinc]
        constructor
        · exact le_trans (length_ite_singleton _ _) (by omega)
        · intro pr hpr
          simp [mem_ite_singleton hpr]
      · have ih := runAttempts_invoked_shape maxRetries key pName pIdx oracle tick fuel
          (attempt + 1)
          (setKey statuses key
            { status := if attempt = 0 then EmailStatus.pending else EmailStatus.retrying,
              timestamp := tick pIdx attempt, attempts := attempt + 1,
              currentProvider := some pName })
          sentEmails (cb.call (tick pIdx attempt) (oracle pIdx attempt)).breaker (some e)
        simp only [runAttempts, hres]
        rw [if_neg hinc]
        constructor
        · rw [List.length_append]
          have h1 := length_ite_singleton
            (cb.call (tick pIdx attempt) (oracle pIdx attempt)).invoked (pIdx, attempt)
          have h2 := ih.1
          omega
        · intro pr hpr
          rw [List.mem_append] at hpr
          rcases hpr with hpr | hpr
          · simp [mem_ite_singleton hpr]
          · exact ih.2 pr hpr

theorem runProviders_invoked_bound (maxRetries : Nat) (key : String)
    (oracle : Nat → Nat → Except String SendResult) (tick : Nat → Nat → Int) :
    ∀ (provs : List (Nat × String)) (breakers : List (String × CircuitBreaker))
      (statuses sentEmails : List (String × ResultRecord)) (le : Option String),
      (runProviders maxRetries key oracle tick breakers statuses sentEmails le
        provs).invoked.length ≤ provs.length * (maxRetries + 1) ∧
      ∀ p : Nat,
        (runProviders maxRetries key oracle tick breakers statuses sentEmails le
          provs).invoked.countP (fun pr => pr.1 = p)
        ≤ provs.countP (fun pr => pr.1 = p) * (maxRetries + 1)
  | [], breakers, statuses, sentEmails, le => by simp [runProviders]
  | (i, name) :: rest, breakers, statuses, sentEmails, le => by
    have hshape := runAttempts_invoked_shape maxRetries key name i oracle tick
      (maxRetries + 1) 0 statuses sentEmails
      ((getKey breakers name).getD (CircuitBreaker.new 0)) le
    have hchunk : ∀ p : Nat,
        (runAttempts maxRetries key name i oracle tick statuses sentEmails
          ((getKey breakers name).getD (CircuitBreaker.new 0)) le 0
          (maxRetries + 1)).invoked.countP (fun pr => pr.1 = p)
        ≤ (if i = p then 1 else 0) * (maxRetries + 1) := by
      intro p
      by_cases hip : i = p
      · simpa [hip] using le_trans (List.countP_le_length _) hshape.1
      · have hz : (runAttempts maxRetries key name i oracle tick statuses sentEmails
            ((getKey breakers name).getD (CircuitBreaker.new 0)) le 0
            (maxRetries + 1)).invoked.countP (fun pr => pr.1 = p) = 0 := by
          rw [List.countP_eq_zero]
          intro pr hpr
          have := hshape.2 pr hpr
          simp [this, hip]
        simp [hz]
    cases hsucc : (runAttempts maxRetries key name i oracle tick statuses sentEmails
        ((getKey breakers name).getD (CircuitBreaker.new 0)) le 0
        (maxRetries + 1)).success with
    | some r =>
      simp only [runProviders, hsucc]
      constructor
      · calc _ ≤ maxRetries + 1 := hshape.1
          _ ≤ (rest.length + 1) * (maxRetries + 1) := by
            have : 1 ≤ rest.length + 1 := by omega
            calc maxRetries + 1 = 1 * (maxRetries + 1) := by ring
              _ ≤ (rest.length + 1) * (maxRetries + 1) :=
                Nat.mul_le_mul_right _ this
      · intro p
        have h1 := hchunk p
        by_cases hip : i = p
        · have hcons : ((i, name) :: rest).countP (fun pr => pr.1 = p)
              = rest.countP (fun pr => pr.1 = p) + 1 := by
            rw [List.countP_cons]; simp [hip]
          rw [hcons, Nat.add_mul]
          rw [if_pos hip] at h1
          omega
        · have hcons : ((i, name) :: rest).countP (fun pr => pr.1 = p)
              = rest.countP (fun pr => pr.1 = p) := by
            rw [List.countP_cons]; simp [hip]
          rw [hcons]
          rw [if_neg hip] at h1
          omega
    | none =>
      have ih := runProviders_invoked_bound maxRetries key oracle tick rest
        (setKey breakers name
          (runAttempts maxRetries key name i oracle tick statuses sentEmails
            ((getKey breakers name).getD (CircuitBreaker.new 0)) le 0
            (maxRetries + 1)).cb)
        (runAttempts maxRetries key name i oracle tick statuses sentEmails
          ((getKey breakers name).getD (CircuitBreaker.new 0)) le 0
          (maxRetries + 1)).statuses
        (runAttempts maxRetries key name i oracle tick statuses sentEmails
          ((getKey breakers name).getD (CircuitBreaker.new 0)) le 0
          (maxRetries + 1)).sentEmails
        (runAttempts maxRetries key name i oracle tick statuses sentEmails
          ((getKey breakers name).getD (CircuitBreaker.new 0)) le 0
          (maxRetries + 1)).lastError
      simp only [runProviders, hsucc]
      constructor
      · rw [List.length_append, List.length_cons]
        have h1 := hshape.1
        have h2 := ih.1
        have hdist : (rest.length + 1) * (maxRetries + 1)
            = rest.length * (maxRetries + 1) + (maxRetries + 1) := by ring
        omega
      · intro p
        rw [List.countP_append]
        have h1 := hchunk p
        have h2 := ih.2 p
        by_cases hip : i = p
        · have hcons : ((i, name) :: rest).countP (fun pr => pr.1 = p)
              = rest.countP (fun pr => pr.1 = p) + 1 := by
            rw [List.countP_cons]; simp [hip]
          rw [hcons, Nat.add_mul]
          rw [if_pos hip] at h1
          omega
        · have hcons : ((i, name) :: rest).countP (fun pr => pr.1 = p)
              = rest.countP (fun pr => pr.1 = p) := by
            rw [List.countP_cons]; simp [hip]
          rw [hcons]
          rw [if_neg hip] at h1
          omega

theorem withIdx_length : ∀ (i : Nat) (xs : List String), (withIdx i xs).length = xs.length
  | _, [] => rfl
  | i, _ :: xs => by simp [withIdx, withIdx_length (i + 1) xs]

theorem withIdx_fst_ge : ∀ (i : Nat) (xs : List String),
    ∀ pr ∈ withIdx i xs, i ≤ pr.1
  | _, [], _, h => absurd h (by simp [withIdx])
  | i, x :: xs, pr, h => by
    simp only [withIdx, List.mem_cons] at h
    rcases h with h | h
    · simp [h]
    · have := withIdx_fst_ge (i + 1) xs pr h
      omega

theorem withIdx_countP_le_one : ∀ (i : Nat) (xs : List String) (p : Nat),
    (withIdx i xs).countP (fun pr => pr.1 = p) ≤ 1
  | _, [], _ => by simp [withIdx]
  | i, x :: xs, p => by
    rw [withIdx, List.countP_cons]
    by_cases hip : i = p
    · subst hip
      have hz : (withIdx (i + 1) xs).countP (fun pr => pr.1 = i) = 0 := by
        rw [List.countP_eq_zero]
        intro pr hpr
        have := withIdx_fst_ge (i + 1) xs pr hpr
        simp
        omega
      simp [hz]
    · have := withIdx_countP_le_one (i + 1) xs p
      have hd : (decide ((i, x).1 = p)) = false := by simpa using hip
      simp [hd]
      omega

/-- C3: for every dispatched submission, the total number of transport
invocations is at most (number of providers) × (maxRetries + 1), and any
single provider is invoked at most maxRetries + 1 times. -/
theorem attemptSend_bounded_invocations (ctx : Ctx)
    (oracle : Nat → Nat → Except String SendResult) (tick : Nat → Nat → Int)
    (email : Email) (key : String) (st : ServiceState) (now : Int) :
    ((attemptSend ctx oracle tick email key st now).2.2.invoked.length
      ≤ ctx.providerNames.length * (ctx.maxRetries + 1)) ∧
    ∀ p : Nat,
      ((attemptSend ctx oracle tick email key st now).2.2.invoked.countP
        (fun pr => pr.1 = p)) ≤ ctx.maxRetries + 1 := by
  have hb := runProviders_invoked_bound ctx.maxRetries key oracle tick
    (withIdx 0 ctx.providerNames) st.breakers
    (setKey st.emailStatuses key
      { status := EmailStatus.pending, timestamp := now, attempts := 0 })
    st.sentEmails none
  have hinv : (attemptSend ctx oracle tick email key st now).2.2.invoked
      = (runProviders ctx.maxRetries key oracle tick st.breakers
          (setKey st.emailStatuses key
            { status := EmailStatus.pending, timestamp := now, attempts := 0 })
          st.sentEmails none (withIdx 0 ctx.providerNames)).invoked := by
    cases hsucc : (runProviders ctx.maxRetries key oracle tick st.breakers
        (setKey st.emailStatuses key
          { status := EmailStatus.pending, timestamp := now, attempts := 0 })
        st.sentEmails none (withIdx 0 ctx.providerNames)).success <;>
      simp only [attemptSend, hsucc]
  rw [hinv]
  constructor
  · calc _ ≤ (withIdx 0 ctx.providerNames).length * (ctx.maxRetries + 1) := hb.1
      _ = _ := by rw [withIdx_length]
  · intro p
    calc _ ≤ (withIdx 0 ctx.providerNames).countP (fun pr => pr.1 = p)
          * (ctx.maxRetries + 1) := hb.2 p
      _ ≤ 1 * (ctx.maxRetries + 1) :=
        Nat.mul_le_mul_right _ (withIdx_countP_le_one 0 ctx.providerNames p)
      _ = ctx.maxRetries + 1 := by ring

/-! C5 — breaker-open refusal: immediate fallback, no sleep, no budget. -/

/-- C5: when a provider's breaker is OPEN and the attempt instant is before
`nextAttempt`, the retry loop for that provider performs no transport
invocation and no backoff sleep, leaves the breaker untouched, and stops
with the distinguished refusal message as last error; consequently the
provider loop proceeds directly to the remaining providers (the dispatch
equals the dispatch over the tail), so the refused provider's retry budget
is not consumed. -/
theorem breakerOpen_immediate_fallback (maxRetries : Nat) (key : String)
    (oracle : Nat → Nat → Except String SendResult) (tick : Nat → Nat → Int)
    (breakers : List (String × CircuitBreaker))
    (statuses sentEmails : List (String × ResultRecord)) (le : Option String)
    (i : Nat) (name : String) (rest : List (Nat × String)) (cb : CircuitBreaker)
    (hcb : getKey breakers name = some cb)
    (hs : cb.state = CircuitState.open_)
    (hlt : tick i 0 < cb.nextAttempt) :
    runAttempts maxRetries key name i oracle tick statuses sentEmails cb le 0
        (maxRetries + 1)
      = { statuses := setKey statuses key
            { status := EmailStatus.pending, timestamp := tick i 0, attempts := 1,
              currentProvider := some name },
          sentEmails := sentEmails, cb := cb, invoked := [], slept := [],
          events := [], success := none,
          lastError := some "Circuit breaker is OPEN" } ∧
    runProviders maxRetries key oracle tick breakers statuses sentEmails le
        ((i, name) :: rest)
      = runProviders maxRetries key oracle tick breakers
          (setKey statuses key
            { status := EmailStatus.pending, timestamp := tick i 0, attempts := 1,
              currentProvider := some name })
          sentEmails (some "Circuit breaker is OPEN") rest := by
  have hcall : cb.call (tick i 0) (oracle i 0)
      = { result := Except.error "Circuit breaker is OPEN", breaker := cb,
          invoked := false } := by
    rw [CircuitBreaker.call, if_pos ⟨hs, hlt⟩]
  have hrun : runAttempts maxRetries key name i oracle tick statuses sentEmails cb le 0
      (maxRetries + 1)
      = { statuses := setKey statuses key
            { status := EmailStatus.pending, timestamp := tick i 0, attempts := 1,
              currentProvider := some name },
          sentEmails := sentEmails, cb := cb, invoked := [], slept := [],
          events := [], success := none,
          lastError := some "Circuit breaker is OPEN" } := by
    simp only [runAttempts, hcall]
    rw [if_pos (by decide : strIncludes "Circuit breaker is OPEN" breakerOpenMsg = true)]
    simp
  refine ⟨hrun, ?_⟩
  simp only [runProviders, hcb, Option.getD_some, hrun]
  rw [setKey_getKey_self breakers name cb hcb]
  simp

/-- Witness for C5: a concrete OPEN breaker short-circuits the dispatch. -/
theorem breakerOpen_immediate_fallback_witness :
    runAttempts 2 "F" "P1" 0 (fun _ _ => Except.ok { id := "u", timestamp := 0 })
        (fun _ _ => 10) [] []
        { threshold := 5, timeout := 100, failureCount := 5,
          state := CircuitState.open_, nextAttempt := 60 } none 0 3
      = { statuses := [("F", { status := EmailStatus.pending, timestamp := 10,
                               attempts := 1, currentProvider := some "P1" })],
          sentEmails := [],
          cb := { threshold := 5, timeout := 100, failureCount := 5,
                  state := CircuitState.open_, nextAttempt := 60 },
          invoked := [], slept := [], events := [], success := none,
          lastError := some "Circuit breaker is OPEN" } :=
  (breakerOpen_immediate_fallback 2 "F"
    (fun _ _ => Except.ok { id := "u", timestamp := 0 }) (fun _ _ => 10)
    [("P1", { threshold := 5, timeout := 100, failureCount := 5,
              state := CircuitState.open_, nextAttempt := 60 })]
    [] [] none 0 "P1" []
    { threshold := 5, timeout := 100, failureCount := 5,
      state := CircuitState.open_, nextAttempt := 60 }
    (by decide) rfl (by decide)).1

/-! C10 — classification of caught errors by the refusal substring. -/

theorem onFailure_failureCount (cb : CircuitBreaker) (now : Int) :
    (cb.onFailure now).failureCount = cb.failureCount + 1 := by
  rw [CircuitBreaker.onFailure]
  split <;> rfl

/-- C10: the coordinator classifies a caught attempt failure as a
breaker-open refusal solely by the substring "Circuit breaker is OPEN" in
its message. A transport failure whose message contains that substring is
invoked (consuming the attempt and incrementing the breaker's failure
counter via `onFailure`) and then makes the coordinator abandon the
provider immediately — no backoff sleep, no further attempt, last error
recorded; a genuine breaker refusal, by contrast, is raised before the
wrapped operation runs and leaves the counter unchanged. -/
theorem breaker_message_classification (maxRetries : Nat) (key pName : String)
    (pIdx : Nat) (oracle : Nat → Nat → Except String SendResult)
    (tick : Nat → Nat → Int) (statuses sentEmails : List (String × ResultRecord))
    (cb : CircuitBreaker) (le : Option String) (attempt fuel : Nat) (e : String)
    (hres : oracle pIdx attempt = Except.error e)
    (hinc : strIncludes e breakerOpenMsg = true)
    (hnotref : ¬ (cb.state = CircuitState.open_ ∧ tick pIdx attempt < cb.nextAttempt)) :
    (runAttempts maxRetries key pName pIdx oracle tick statuses sentEmails cb le attempt
      (fuel + 1)).invoked = [(pIdx, attempt)] ∧
    (runAttempts maxRetries key pName pIdx oracle tick statuses sentEmails cb le attempt
      (fuel + 1)).slept = [] ∧
    (runAttempts maxRetries key pName pIdx oracle tick statuses sentEmails cb le attempt
      (fuel + 1)).success = none ∧
    (runAttempts maxRetries key pName pIdx oracle tick statuses sentEmails cb le attempt
      (fuel + 1)).lastError = some e ∧
    (runAttempts maxRetries key pName pIdx oracle tick statuses sentEmails cb le attempt
      (fuel + 1)).cb.failureCount = cb.failureCount + 1 ∧
    (∀ (cb2 : CircuitBreaker) (now2 : Int) (fn : Except String SendResult),
      cb2.state = CircuitState.open_ → now2 < cb2.nextAttempt →
      (cb2.call now2 fn).invoked = false ∧
      (cb2.call now2 fn).breaker.failureCount = cb2.failureCount) := by
  have hcall : cb.call (tick pIdx attempt) (oracle pIdx attempt)
      = { result := Except.error e,
          breaker := (if cb.state = CircuitState.open_ then
            { cb with state := CircuitState.halfOpen } else cb).onFailure
            (tick pIdx attempt),
          invoked := true } := by
    rw [CircuitBreaker.call, if_neg hnotref]
    simp only [hres]
  have hout : runAttempts maxRetries key pName pIdx oracle tick statuses sentEmails cb le
      attempt (fuel + 1)
      = { statuses := setKey statuses key
            { status := if attempt = 0 then EmailStatus.pending else EmailStatus.retrying,
              timestamp := tick pIdx attempt, attempts := attempt + 1,
              currentProvider := some pName },
          sentEmails := sentEmails,
          cb := (if cb.state = CircuitState.open_ then
            { cb with state := CircuitState.halfOpen } else cb).onFailure
            (tick pIdx attempt),
          invoked := [(pIdx, attempt)], slept := [], events := [], success := none,
          lastError := some e } := by
    simp only [runAttempts, hcall]
    rw [if_pos hinc]
    simp
  have hfc : ((if cb.state = CircuitState.open_ then
      { cb with state := CircuitState.halfOpen } else cb).onFailure
      (tick pIdx attempt)).failureCount = cb.failureCount + 1 := by
    rw [onFailure_failureCount]
    split <;> rfl
  refine ⟨by rw [hout], by rw [hout], by rw [hout], by rw [hout],
    by rw [hout]; exact hfc, ?_⟩
  intro cb2 now2 fn hs2 hlt2
  rw [CircuitBreaker.call, if_pos ⟨hs2, hlt2⟩]
  exact ⟨rfl, rfl⟩

/-- Witness for C10: a transport error message that merely contains the
refusal phrase is treated as a refusal but still increments the counter. -/
theorem breaker_message_classification_witness :
    (runAttempts 3 "F" "P1" 0
      (fun _ _ => Except.error "P1: Circuit breaker is OPEN (reported upstream)")
      (fun _ _ => 4) [] [] (CircuitBreaker.new 0) none 0 (3 + 1)).invoked = [(0, 0)] ∧
    (runAttempts 3 "F" "P1" 0
      (fun _ _ => Except.error "P1: Circuit breaker is OPEN (reported upstream)")
      (fun _ _ => 4) [] [] (CircuitBreaker.new 0) none 0 (3 + 1)).slept = [] ∧
    (runAttempts 3 "F" "P1" 0
      (fun _ _ => Except.error "P1: Circuit breaker is OPEN (reported upstream)")
      (fun _ _ => 4) [] [] (CircuitBreaker.new 0) none 0 (3 + 1)).cb.failureCount
      = (CircuitBreaker.new 0).failureCount + 1 := by
  have h := breaker_message_classification 3 "F" "P1" 0
    (fun _ _ => Except.error "P1: Circuit breaker is OPEN (reported upstream)")
    (fun _ _ => 4) [] [] (CircuitBreaker.new 0) none 0 3
    "P1: Circuit breaker is OPEN (reported upstream)" rfl (by decide) (by decide)
  exact ⟨h.1, h.2.1, h.2.2.2.2.1⟩

/-! C8 — getStats shape. -/

/-- C8 counterexample: the claim says `getStats` reports the count of
statuses equal to QUEUED, but the source reports the current length of the
deferred queue (`this.queue.size()`). Submitting the same rate-denied
message twice enqueues it twice under one fingerprint: the queue length is
2 while exactly one status is QUEUED, and `getStats` reports 2. -/
theorem getStats_queued_count_cex :
    (getStats { providerNames := ["P1"], maxRetries := 0 }
      ((sendEmail { providerNames := ["P1"], maxRetries := 0 } (fun _ => "H")
        (fun _ _ => Except.ok { id := "u1", timestamp := 3 }) (fun _ _ => 0)
        { to_ := "a", from_ := "b", subject := "s2", body := "x", idempotencyKey := some "B" }
        ((sendEmail { providerNames := ["P1"], maxRetries := 0 } (fun _ => "H")
          (fun _ _ => Except.ok { id := "u1", timestamp := 3 }) (fun _ _ => 0)
          { to_ := "a", from_ := "b", subject := "s2", body := "x", idempotencyKey := some "B" }
          ((sendEmail { providerNames := ["P1"], maxRetries := 0 } (fun _ => "H")
            (fun _ _ => Except.ok { id := "u1", timestamp := 3 }) (fun _ _ => 0)
            { to_ := "a", from_ := "b", subject := "s1", body := "x",
              idempotencyKey := some "A" }
            { breakers := [("P1", CircuitBreaker.new 0)],
              rateLimiter := { maxRequests := 1, windowMs := 1000, requests := [] },
              sentEmails := [], emailStatuses := [], queue := [] } 0).2.1) 1).2.1)
        2).2.1)).queuedEmails = 2 ∧
    ((sendEmail { providerNames := ["P1"], maxRetries := 0 } (fun _ => "H")
        (fun _ _ => Except.ok { id := "u1", timestamp := 3 }) (fun _ _ => 0)
        { to_ := "a", from_ := "b", subject := "s2", body := "x", idempotencyKey := some "B" }
        ((sendEmail { providerNames := ["P1"], maxRetries := 0 } (fun _ => "H")
          (fun _ _ => Except.ok { id := "u1", timestamp := 3 }) (fun _ _ => 0)
          { to_ := "a", from_ := "b", subject := "s2", body := "x", idempotencyKey := some "B" }
          ((sendEmail { providerNames := ["P1"], maxRetries := 0 } (fun _ => "H")
            (fun _ _ => Except.ok { id := "u1", timestamp := 3 }) (fun _ _ => 0)
            { to_ := "a", from_ := "b", subject := "s1", body := "x",
              idempotencyKey := some "A" }
            { breakers := [("P1", CircuitBreaker.new 0)],
              rateLimiter := { maxRequests := 1, windowMs := 1000, requests := [] },
              sentEmails := [], emailStatuses := [], queue := [] } 0).2.1) 1).2.1)
        2).2.1).emailStatuses.countP
      (fun kv => kv.2.status = EmailStatus.queued) = 1 := by
  decide

/-- C8 amended: `getStats` returns the number of fingerprints ever
observed (the status-table size), the counts of statuses equal to SENT and
FAILED, the *current deferred-queue length* as `queuedEmails` (not the
count of QUEUED statuses), the per-provider breaker statistics, and a
success rate formatted as a two-decimal percentage of SENT over total
observed, reported as the string "0%" when the total observed is 0. -/
theorem getStats_shape (ctx : Ctx) (st : ServiceState) :
    (getStats ctx st).totalEmails = st.emailStatuses.length ∧
    (getStats ctx st).sentEmails
      = st.emailStatuses.countP (fun kv => kv.2.status = EmailStatus.sent) ∧
    (getStats ctx st).failedEmails
      = st.emailStatuses.countP (fun kv => kv.2.status = EmailStatus.failed) ∧
    (getStats ctx st).queuedEmails = st.queue.length ∧
    (getStats ctx st).successRate
      = (if 0 < st.emailStatuses.length
         then percentString
           (st.emailStatuses.countP (fun kv => kv.2.status = EmailStatus.sent))
           st.emailStatuses.length
         else "0%") ∧
    (getStats ctx st).providers = getProviderStats ctx st := by
  refine ⟨rfl, ?_, ?_, rfl, ?_, rfl⟩
  · exact (List.countP_eq_length_filter _ _).symm
  · exact (List.countP_eq_length_filter _ _).symm
  · rw [getStats]
    rw [List.countP_eq_length_filter]

/-! C9 — the `id` field of results versus the fingerprint. -/

theorem call_result_ok (cb : CircuitBreaker) (now : Int)
    (fn : Except String SendResult) (x : SendResult)
    (h : (cb.call now fn).result = Except.ok x) : fn = Except.ok x := by
  rw [CircuitBreaker.call] at h
  split at h
  · simp at h
  · cases fn with
    | ok y => simpa using h
    | error e => simp at h

theorem runAttempts_statuses_other (maxRetries : Nat) (key pName : String)
    (pIdx : Nat) (oracle : Nat → Nat → Except String SendResult)
    (tick : Nat → Nat → Int) :
    ∀ (fuel attempt : Nat) (statuses sentEmails : List (String × ResultRecord))
      (cb : CircuitBreaker) (le : Option String) (k : String), k ≠ key →
      getKey (runAttempts maxRetries key pName pIdx oracle tick statuses sentEmails cb le
        attempt fuel).statuses k = getKey statuses k
  | 0, attempt, statuses, sentEmails, cb, le, k, hk => rfl
  | fuel + 1, attempt, statuses, sentEmails, cb, le, k, hk => by
    cases hres : (cb.call (tick pIdx attempt) (oracle pIdx attempt)).result with
    | ok r =>
      simp only [runAttempts, hres]
      rw [getKey_setKey_ne _ _ _ _ hk, getKey_setKey_ne _ _ _ _ hk]
    | error e =>
      by_cases hinc : strIncludes e breakerOpenMsg = true
      · simp only [runAttempts, hres]
        rw [if_pos hinc]
        exact getKey_setKey_ne _ _ _ _ hk
      · have ih := runAttempts_statuses_other maxRetries key pName pIdx oracle tick fuel
          (attempt + 1)
          (setKey statuses key
            { status := if attempt = 0 then EmailStatus.pending else EmailStatus.retrying,
              timestamp := tick pIdx attempt, attempts := attempt + 1,
              currentProvider := some pName })
          sentEmails (cb.call (tick pIdx attempt) (oracle pIdx attempt)).breaker (some e)
          k hk
        simp only [runAttempts, hres]
        rw [if_neg hinc]
        rw [ih, getKey_setKey_ne _ _ _ _ hk]

theorem runProviders_statuses_other (maxRetries : Nat) (key : String)
    (oracle : Nat → Nat → Except String SendResult) (tick : Nat → Nat → Int) :
    ∀ (provs : List (Nat × String)) (breakers : List (String × CircuitBreaker))
      (statuses sentEmails : List (String × ResultRecord)) (le : Option String)
      (k : String), k ≠ key →
      getKey (runProviders maxRetries key oracle tick breakers statuses sentEmails le
        provs).statuses k = getKey statuses k
  | [], breakers, statuses, sentEmails, le, k, hk => rfl
  | (i, name) :: rest, breakers, statuses, sentEmails, le, k, hk => by
    have h1 := runAttempts_statuses_other maxRetries key name i oracle tick
      (maxRetries + 1) 0 statuses sentEmails
      ((getKey breakers name).getD (CircuitBreaker.new 0)) le k hk
    cases hsucc : (runAttempts maxRetries key name i oracle tick statuses sentEmails
        ((getKey breakers name).getD (CircuitBreaker.new 0)) le 0
        (maxRetries + 1)).success with
    | some r =>
      simp only [runProviders, hsucc]
      exact h1
    | none =>
      have ih := runProviders_statuses_other maxRetries key oracle tick rest
        (setKey breakers name
          (runAttempts maxRetries key name i oracle tick statuses sentEmails
            ((getKey breakers name).getD (CircuitBreaker.new 0)) le 0
            (maxRetries + 1)).cb)
        (runAttempts maxRetries key name i oracle tick statuses sentEmails
          ((getKey breakers name).getD (CircuitBreaker.new 0)) le 0
          (maxRetries + 1)).statuses
        (runAttempts maxRetries key name i oracle tick statuses sentEmails
          ((getKey breakers name).getD (CircuitBreaker.new 0)) le 0
          (maxRetries + 1)).sentEmails
        (runAttempts maxRetries key name i oracle tick statuses sentEmails
          ((getKey breakers name).getD (CircuitBreaker.new 0)) le 0
          (maxRetries + 1)).lastError
        k hk
      simp only [runProviders, hsucc]
      rw [ih, h1]

theorem runAttempts_success_provenance (maxRetries : Nat) (key pName : String)
    (pIdx : Nat) (oracle : Nat → Nat → Except String SendResult)
    (tick : Nat → Nat → Int) :
    ∀ (fuel attempt : Nat) (statuses sentEmails : List (String × ResultRecord))
      (cb : CircuitBreaker) (le : Option String) (r : ResultRecord),
      (runAttempts maxRetries key pName pIdx oracle tick statuses sentEmails cb le
        attempt fuel).success = some r →
      ∃ (a : Nat) (x : SendResult), oracle pIdx a = Except.ok x ∧
        r.id = some x.id ∧ r.status = EmailStatus.sent ∧
        getKey (runAttempts maxRetries key pName pIdx oracle tick statuses sentEmails cb le
          attempt fuel).statuses key = some r
  | 0, attempt, statuses, sentEmails, cb, le, r, h => by simp [runAttempts] at h
  | fuel + 1, attempt, statuses, sentEmails, cb, le, r, h => by
    cases hres : (cb.call (tick pIdx attempt) (oracle pIdx attempt)).result with
    | ok x0 =>
      have horacle := call_result_ok _ _ _ _ hres
      simp only [runAttempts, hres] at h ⊢
      have hr : r =
          { id := some x0.id, status := EmailStatus.sent,
            provider := some pName, timestamp := x0.timestamp,
            attempts := attempt + 1 } := by
        simpa using h.symm
      refine ⟨attempt, x0, horacle, ?_, ?_, ?_⟩
      · rw [hr]
      · rw [hr]
      · rw [getKey_setKey_self, hr]
    | error e =>
      by_cases hinc : strIncludes e breakerOpenMsg = true
      · simp only [runAttempts, hres] at h
        rw [if_pos hinc] at h
        simp at h
      · have ih := runAttempts_success_provenance maxRetries key pName pIdx oracle tick
          fuel (attempt + 1)
          (setKey statuses key
            { status := if attempt = 0 then EmailStatus.pending else EmailStatus.retrying,
              timestamp := tick pIdx attempt, attempts := attempt + 1,
              currentProvider := some pName })
          sentEmails (cb.call (tick pIdx attempt) (oracle pIdx attempt)).breaker (some e) r
        simp only [runAttempts, hres] at h ⊢
        rw [if_neg hinc] at h ⊢
        exact ih h

theorem runProviders_success_provenance (maxRetries : Nat) (key : String)
    (oracle : Nat → Nat → Except String SendResult) (tick : Nat → Nat → Int) :
    ∀ (provs : List (Nat × String)) (breakers : List (String × CircuitBreaker))
      (statuses sentEmails : List (String × ResultRecord)) (le : Option String)
      (r : ResultRecord),
      (runProviders maxRetries key oracle tick breakers statuses sentEmails le
        provs).success = some r →
      ∃ (i a : Nat) (x : SendResult), oracle i a = Except.ok x ∧
        r.id = some x.id ∧ r.status = EmailStatus.sent ∧
        getKey (runProviders maxRetries key oracle tick breakers statuses sentEmails le
          provs).statuses key = some r
  | [], breakers, statuses, sentEmails, le, r, h => by simp [runProviders] at h
  | (i, name) :: rest, breakers, statuses, sentEmails, le, r, h => by
    cases hsucc : (runAttempts maxRetries key name i oracle tick statuses sentEmails
        ((getKey breakers name).getD (CircuitBreaker.new 0)) le 0
        (maxRetries + 1)).success with
    | some r0 =>
      simp only [runProviders, hsucc] at h ⊢
      have hr : r0 = r := by simpa using h
      obtain ⟨a, x, hor, hid, hst, hget⟩ := runAttempts_success_provenance maxRetries key
        name i oracle tick (maxRetries + 1) 0 statuses sentEmails
        ((getKey breakers name).getD (CircuitBreaker.new 0)) le r0 hsucc
      exact ⟨i, a, x, hor, by rw [← hr]; exact hid, by rw [← hr]; exact hst,
        by rw [← hr]; exact hget⟩
    | none =>
      have ih := runProviders_success_provenance maxRetries key oracle tick rest
        (setKey breakers name
          (runAttempts maxRetries key name i oracle tick statuses sentEmails
            ((getKey breakers name).getD (CircuitBreaker.new 0)) le 0
            (maxRetries + 1)).cb)
        (runAttempts maxRetries key name i oracle tick statuses sentEmails
          ((getKey breakers name).getD (CircuitBreaker.new 0)) le 0
          (maxRetries + 1)).statuses
        (runAttempts maxRetries key name i oracle tick statuses sentEmails
          ((getKey breakers name).getD (CircuitBreaker.new 0)) le 0
          (maxRetries + 1)).sentEmails
        (runAttempts maxRetries key name i oracle tick statuses sentEmails
          ((getKey breakers name).getD (CircuitBreaker.new 0)) le 0
          (maxRetries + 1)).lastError r
      simp only [runProviders, hsucc] at h ⊢
      exact ih h

/-- C9 counterexample: the claim asserts the SENT result's `id` (the
transport-assigned delivery id) is distinct from the fingerprint and that
`getEmailStatus` on it returns null; but the transport is free to return
any id. With a transport whose delivery id equals the fingerprint "F",
the SENT result's `id` is "F" and `getEmailStatus` on it returns the
recorded status, not null. -/
theorem result_id_collision_cex :
    (sendEmail { providerNames := ["P1"], maxRetries := 0 } (fun _ => "H")
      (fun _ _ => Except.ok { id := "F", timestamp := 7 }) (fun _ _ => 0)
      { to_ := "a", from_ := "b", subject := "s", body := "x", idempotencyKey := some "F" }
      { breakers := [("P1", CircuitBreaker.new 0)],
        rateLimiter := { maxRequests := 100, windowMs := 1000, requests := [] },
        sentEmails := [], emailStatuses := [], queue := [] } 0).1.status
      = EmailStatus.sent ∧
    (sendEmail { providerNames := ["P1"], maxRetries := 0 } (fun _ => "H")
      (fun _ _ => Except.ok { id := "F", timestamp := 7 }) (fun _ _ => 0)
      { to_ := "a", from_ := "b", subject := "s", body := "x", idempotencyKey := some "F" }
      { breakers := [("P1", CircuitBreaker.new 0)],
        rateLimiter := { maxRequests := 100, windowMs := 1000, requests := [] },
        sentEmails := [], emailStatuses := [], queue := [] } 0).1.id = some "F" ∧
    generateIdempotencyKey (fun _ => "H")
      { to_ := "a", from_ := "b", subject := "s", body := "x", idempotencyKey := some "F" }
      = "F" ∧
    getEmailStatus
      (sendEmail { providerNames := ["P1"], maxRetries := 0 } (fun _ => "H")
        (fun _ _ => Except.ok { id := "F", timestamp := 7 }) (fun _ _ => 0)
        { to_ := "a", from_ := "b", subject := "s", body := "x", idempotencyKey := some "F" }
        { breakers := [("P1", CircuitBreaker.new 0)],
          rateLimiter := { maxRequests := 100, windowMs := 1000, requests := [] },
          sentEmails := [], emailStatuses := [], queue := [] } 0).2.1 "F" ≠ none := by
  decide

/-- C9 amended: for a fresh submission, the result's `id` equals the
fingerprint when the status is QUEUED or FAILED; when the status is SENT
it equals the delivery id returned by the transport, and — provided that
delivery id differs from the fingerprint and from every observed
fingerprint, as expected of a random UUID — `getEmailStatus` on the
delivery id returns null, while `getEmailStatus` on the fingerprint
returns the recorded status. -/
theorem result_id_semantics (ctx : Ctx) (hash : Email → String)
    (oracle : Nat → Nat → Except String SendResult) (tick : Nat → Nat → Int)
    (email : Email) (st : ServiceState) (now : Int)
    (hfresh : getKey st.sentEmails (generateIdempotencyKey hash email) = none) :
    ((sendEmail ctx hash oracle tick email st now).1.status = EmailStatus.queued →
      (sendEmail ctx hash oracle tick email st now).1.id
        = some (generateIdempotencyKey hash email)) ∧
    ((sendEmail ctx hash oracle tick email st now).1.status = EmailStatus.failed →
      (sendEmail ctx hash oracle tick email st now).1.id
        = some (generateIdempotencyKey hash email) ∧
      getEmailStatus (sendEmail ctx hash oracle tick email st now).2.1
          (generateIdempotencyKey hash email)
        = some (sendEmail ctx hash oracle tick email st now).1) ∧
    ((sendEmail ctx hash oracle tick email st now).1.status = EmailStatus.sent →
      ∃ (i a : Nat) (x : SendResult), oracle i a = Except.ok x ∧
        (sendEmail ctx hash oracle tick email st now).1.id = some x.id ∧
        getEmailStatus (sendEmail ctx hash oracle tick email st now).2.1
            (generateIdempotencyKey hash email)
          = some (sendEmail ctx hash oracle tick email st now).1 ∧
        (x.id ≠ generateIdempotencyKey hash email →
          getKey st.emailStatuses x.id = none →
          getEmailStatus (sendEmail ctx hash oracle tick email st now).2.1 x.id
            = none)) := by
  simp only [sendEmail, hfresh]
  by_cases hall : (st.rateLimiter.isAllowed now).1 = true
  · rw [if_pos hall]
    simp only [attemptSend]
    split
    · rename_i r heq
      obtain ⟨i, a, x, hor, hid, hst, hget⟩ :=
        runProviders_success_provenance _ _ oracle tick _ _ _ _ _ _ heq
      refine ⟨fun hq => ?_, fun hf => ?_, fun _ => ?_⟩
      · simp only [hst] at hq
        simp at hq
      · simp only [hst] at hf
        simp at hf
      · refine ⟨i, a, x, hor, hid, ?_, fun hne hnone => ?_⟩
        · simpa [getEmailStatus] using hget
        · have h1 := runProviders_statuses_other ctx.maxRetries
            (generateIdempotencyKey hash email) oracle tick
            (withIdx 0 ctx.providerNames) st.breakers
            (setKey st.emailStatuses (generateIdempotencyKey hash email)
              { status := EmailStatus.pending, timestamp := now, attempts := 0 })
            st.sentEmails none x.id hne
          simp only [getEmailStatus]
          rw [h1, getKey_setKey_ne _ _ _ _ hne, hnone]
    · rename_i heq
      refine ⟨fun hq => by simp at hq, fun _ => ?_, fun hsent => by simp at hsent⟩
      refine ⟨rfl, ?_⟩
      simp only [getEmailStatus]
      rw [getKey_setKey_self]
  · rw [if_neg hall]
    refine ⟨fun _ => rfl, fun hf => by simp at hf, fun hsent => by simp at hsent⟩

/-- Witness for the amended C9 on a concrete failing dispatch: the FAILED
result carries the fingerprint as `id` and is the recorded status. -/
theorem result_id_semantics_witness :
    (sendEmail { providerNames := ["P1"], maxRetries := 0 } (fun _ => "H")
      (fun _ _ => Except.error "boom") (fun _ _ => 0)
      { to_ := "a", from_ := "b", subject := "s", body := "x", idempotencyKey := some "F" }
      { breakers := [("P1", CircuitBreaker.new 0)],
        rateLimiter := { maxRequests := 100, windowMs := 1000, requests := [] },
        sentEmails := [], emailStatuses := [], queue := [] } 0).1.id = some "F" ∧
    getEmailStatus
      (sendEmail { providerNames := ["P1"], maxRetries := 0 } (fun _ => "H")
        (fun _ _ => Except.error "boom") (fun _ _ => 0)
        { to_ := "a", from_ := "b", subject := "s", body := "x", idempotencyKey := some "F" }
        { breakers := [("P1", CircuitBreaker.new 0)],
          rateLimiter := { maxRequests := 100, windowMs := 1000, requests := [] },
          sentEmails := [], emailStatuses := [], queue := [] } 0).2.1 "F"
      = some (sendEmail { providerNames := ["P1"], maxRetries := 0 } (fun _ => "H")
        (fun _ _ => Except.error "boom") (fun _ _ => 0)
        { to_ := "a", from_ := "b", subject := "s", body := "x", idempotencyKey := some "F" }
        { breakers := [("P1", CircuitBreaker.new 0)],
          rateLimiter := { maxRequests := 100, windowMs := 1000, requests := [] },
          sentEmails := [], emailStatuses := [], queue := [] } 0).1 :=
  (result_id_semantics { providerNames := ["P1"], maxRetries := 0 } (fun _ => "H")
    (fun _ _ => Except.error "boom") (fun _ _ => 0)
    { to_ := "a", from_ := "b", subject := "s", body := "x", idempotencyKey := some "F" }
    { breakers := [("P1", CircuitBreaker.new 0)],
      rateLimiter := { maxRequests := 100, windowMs := 1000, requests := [] },
      sentEmails := [], emailStatuses := [], queue := [] } 0 (by decide)).2.1 (by decide)
